import Mathlib

/-! Verification of the JetStream resource-management layer of the NATS server
(server/jetstream.go): account limits, the engine quota ledger, admission
control for new message sets, the message-delete request handler and the
on-disk recovery procedure, shallowly embedded as pure Lean functions.

Conventions of the embedding:
* Go `int` / `int64` values are modelled as `Int`; the quantities involved are
  configured limits and reservation counters manipulated only by comparison,
  addition and subtraction, so no wrap-around arithmetic is relevant here.
* A Go map is modelled as an association list with unique keys.
* A Go function returning `error` is modelled as returning `Option String`
  (`none` = nil error) or `Except String α`.
* Handlers and operations that mutate state under a lock are modelled as
  functions from the state to the resulting state (paired with the reply or
  error), translated statement by statement, so an early `return err` yields
  exactly the state at that program point.
-/

namespace NatsServer

/-- JetStreamAccountLimits (jetstream.go): per-account limits record with
fields MaxMemory, MaxStore (int64, bytes) and MaxMsgSets, MaxObservables (int). -/
structure JetStreamAccountLimits where
  maxMemory : Int
  maxStore : Int
  maxMsgSets : Int
  maxObservables : Int
deriving Repr, DecidableEq

/-- JetStreamConfig (jetstream.go): the engine configuration with MaxMemory,
MaxStore (bytes) and the storage directory. -/
structure JetStreamConfig where
  maxMemory : Int
  maxStore : Int
  storeDir : String
deriving Repr, DecidableEq

/-- Modelled from the spec: the storage kind of a message set, MemoryStorage or
FileStorage. The StorageType constants are declared in the store layer, which
is outside the given source slice; jetstream.go switches on exactly these two
values in jsAccount.checkLimits. -/
inductive StorageType where
  | memoryStorage
  | fileStorage
deriving Repr, DecidableEq

/-- Modelled from the spec: the fields of MsgSetConfig that jetstream.go reads
(the struct itself is declared in msgset.go, outside the given slice). Spec
section 3 lists Name, Subjects, Retention, Storage, MaxBytes, MaxMsgs, MaxAge,
Replicas, NoAck, MaxObservables; only Name, Replicas, MaxObservables, MaxBytes
and Storage are consulted by the admission check and recovery path verified
here, so the remaining fields are omitted from the model. -/
structure MsgSetConfig where
  name : String
  replicas : Int
  maxObservables : Int
  maxBytes : Int
  storage : StorageType
deriving Repr, DecidableEq

/-- The fields of jsAccount (jetstream.go) read by checkLimits: the account
limits, the registered message sets (modelled by their names, the keys of the
Go map jsa.msgSets) and the per-account advance reservations. -/
structure JsAccount where
  limits : JetStreamAccountLimits
  msgSets : List String
  memReserved : Int
  storeReserved : Int
deriving Repr, DecidableEq

/-- jsAccount.checkLimits (jetstream.go): admission control for a new message
set.  Returns the error, or on success the caller's config after the intended
side effect of inheriting the account's observables cap. -/
def checkLimits (jsa : JsAccount) (config : MsgSetConfig) : Except String MsgSetConfig :=
  if jsa.limits.maxMsgSets > 0 ∧ (jsa.msgSets.length : Int) ≥ jsa.limits.maxMsgSets then
    Except.error "maximum number of message sets reached"
  else if config.replicas ≠ 1 then
    Except.error ("replicas setting of " ++ toString config.replicas ++ " not allowed")
  else if config.maxObservables > 0 ∧ config.maxObservables > jsa.limits.maxObservables then
    Except.error "maximum observables exceeds account limit"
  else
    let config2 := { config with maxObservables := jsa.limits.maxObservables }
    if config2.maxBytes > 0 then
      let mb := config2.maxBytes * config2.replicas
      match config2.storage with
      | StorageType.memoryStorage =>
        if jsa.memReserved + mb > jsa.limits.maxMemory then
          Except.error "insufficient memory resources available"
        else Except.ok config2
      | StorageType.fileStorage =>
        if jsa.storeReserved + mb > jsa.limits.maxStore then
          Except.error "insufficient storage resources available"
        else Except.ok config2
    else Except.ok config2

/-- The engine state jetStream (jetstream.go): configuration, the accounts map
(account identity modelled as a Nat key, value the stored jsAccount limits, the
only jsAccount field the engine-ledger operations touch) and the two ledger
counters. -/
structure JetStreamState where
  config : JetStreamConfig
  accounts : List (Nat × JetStreamAccountLimits)
  memReserved : Int
  storeReserved : Int
deriving Repr, DecidableEq

/-- jetStream.sufficientResources (jetstream.go): nil limits always pass;
otherwise each byte dimension must fit under the configured maximum. -/
def sufficientResources (st : JetStreamState) (limits : Option JetStreamAccountLimits) :
    Option String :=
  match limits with
  | none => none
  | some l =>
    if st.memReserved + l.maxMemory > st.config.maxMemory then
      some "insufficient memory resources available"
    else if st.storeReserved + l.maxStore > st.config.maxStore then
      some "insufficient storage resources available"
    else none

/-- jetStream.reserveResources (jetstream.go): blindly add the positive byte
fields to the ledger. -/
def reserveResources (st : JetStreamState) (limits : Option JetStreamAccountLimits) :
    JetStreamState :=
  match limits with
  | none => st
  | some l =>
    let st1 := if l.maxMemory > 0 then
        { st with memReserved := st.memReserved + l.maxMemory } else st
    if l.maxStore > 0 then
      { st1 with storeReserved := st1.storeReserved + l.maxStore } else st1

/-- jetStream.releaseResources (jetstream.go): subtract the positive byte
fields from the ledger. -/
def releaseResources (st : JetStreamState) (limits : Option JetStreamAccountLimits) :
    JetStreamState :=
  match limits with
  | none => st
  | some l =>
    let st1 := if l.maxMemory > 0 then
        { st with memReserved := st.memReserved - l.maxMemory } else st
    if l.maxStore > 0 then
      { st1 with storeReserved := st1.storeReserved - l.maxStore } else st1

/-- diffCheckedLimits (jetstream.go): the delta record between the current and
the requested limits.  The Go struct literal names only MaxMemory and MaxStore,
so the two remaining fields are the zero value. -/
def diffCheckedLimits (a b : JetStreamAccountLimits) : JetStreamAccountLimits :=
  { maxMemory := b.maxMemory - a.maxMemory
    maxStore := b.maxStore - a.maxStore
    maxMsgSets := 0
    maxObservables := 0 }

/-- The engine-locked section of Account.EnableJetStream (jetstream.go):
sufficiency check, duplicate check, then insertion of the new account state and
reservation of its limits. -/
def accountEnableJetStream (st : JetStreamState) (a : Nat)
    (limits : JetStreamAccountLimits) : JetStreamState × Option String :=
  match sufficientResources st (some limits) with
  | some err => (st, some err)
  | none =>
    match st.accounts.lookup a with
    | some _ => (st, some "jetstream already enabled for account")
    | none =>
      let st1 := { st with accounts := (a, limits) :: st.accounts }
      (reserveResources st1 (some limits), none)

/-- Account.UpdateJetStreamLimits (jetstream.go), from the account lookup on:
compute the delta, check sufficiency against it, then release the old limits,
reserve the new ones and store them on the account. -/
def updateJetStreamLimits (st : JetStreamState) (a : Nat)
    (limits : JetStreamAccountLimits) : JetStreamState × Option String :=
  match st.accounts.lookup a with
  | none => (st, some "jetstream not enabled for account")
  | some jsaLimits =>
    let dl := diffCheckedLimits jsaLimits limits
    match sufficientResources st (some dl) with
    | some err => (st, some err)
    | none =>
      let st1 := releaseResources st (some jsaLimits)
      let st2 := reserveResources st1 (some limits)
      ({ st2 with accounts :=
          st2.accounts.map (fun p => if p.1 == a then (a, limits) else p) }, none)

/-- jetStream.disableJetStream (jetstream.go) reached through
Account.DisableJetStream: nil account state is an error, otherwise delete the
account from the registry and release its limits. -/
def disableJetStream (st : JetStreamState) (a : Nat) : JetStreamState × Option String :=
  match st.accounts.lookup a with
  | none => (st, some "jetstream not enabled for account")
  | some jsaLimits =>
    let st1 := { st with accounts := st.accounts.filter (fun p => p.1 != a) }
    (releaseResources st1 (some jsaLimits), none)

/-- The account-level operations a client of the engine can run. -/
inductive JSOp where
  | enable (a : Nat) (limits : JetStreamAccountLimits)
  | update (a : Nat) (limits : JetStreamAccountLimits)
  | disable (a : Nat)

/-- Run one operation, keeping the resulting state (errors leave the state as
the operation returned it, which for every error path is the input state). -/
def applyOp (st : JetStreamState) : JSOp → JetStreamState
  | JSOp.enable a l => (accountEnableJetStream st a l).1
  | JSOp.update a l => (updateJetStreamLimits st a l).1
  | JSOp.disable a => (disableJetStream st a).1

/-- Run a sequence of operations. -/
def runOps (st : JetStreamState) : List JSOp → JetStreamState
  | [] => st
  | op :: rest => runOps (applyOp st op) rest

/-- The engine state right after Server.EnableJetStream builds it: empty
accounts map, zero ledger. -/
def initialState (cfg : JetStreamConfig) : JetStreamState :=
  { config := cfg, accounts := [], memReserved := 0, storeReserved := 0 }

/-- The positive part of an integer: what reserveResources adds and
releaseResources subtracts for one byte field. -/
def posPart (x : Int) : Int := if x > 0 then x else 0

/-- Sum of the positive parts of one limits field over the accounts map. -/
def reservedSum (f : JetStreamAccountLimits → Int)
    (accs : List (Nat × JetStreamAccountLimits)) : Int :=
  (accs.map (fun p => posPart (f p.2))).sum

/-- The ledger invariant that actually holds: each counter is the sum of the
positive parts of the corresponding limits field over the enabled accounts. -/
def ledgerInv (st : JetStreamState) : Prop :=
  st.memReserved = reservedSum (fun l => l.maxMemory) st.accounts ∧
  st.storeReserved = reservedSum (fun l => l.maxStore) st.accounts

/-- The keys of the accounts map. -/
def accountKeys (accs : List (Nat × JetStreamAccountLimits)) : List Nat :=
  accs.map Prod.fst

/-- Well-formed engine state: ledger invariant plus unique map keys. -/
def goodState (st : JetStreamState) : Prop :=
  ledgerInv st ∧ (accountKeys st.accounts).Nodup

/-- The ledger invariant exactly as the specification claims it: the plain sum
of MaxMemory (resp. MaxStore) over enabled accounts, with no restriction to
positive fields. -/
def specClaimedLedgerInv (st : JetStreamState) : Prop :=
  st.memReserved = (st.accounts.map (fun p => p.2.maxMemory)).sum ∧
  st.storeReserved = (st.accounts.map (fun p => p.2.maxStore)).sum

theorem reserveResources_eq (st : JetStreamState) (l : JetStreamAccountLimits) :
    reserveResources st (some l) =
      { st with memReserved := st.memReserved + posPart l.maxMemory,
                storeReserved := st.storeReserved + posPart l.maxStore } := by
  simp only [reserveResources, posPart]
  by_cases hm : l.maxMemory > 0 <;> by_cases hs : l.maxStore > 0 <;> simp [hm, hs]

theorem releaseResources_eq (st : JetStreamState) (l : JetStreamAccountLimits) :
    releaseResources st (some l) =
      { st with memReserved := st.memReserved - posPart l.maxMemory,
                storeReserved := st.storeReserved - posPart l.maxStore } := by
  simp only [releaseResources, posPart]
  by_cases hm : l.maxMemory > 0 <;> by_cases hs : l.maxStore > 0 <;> simp [hm, hs]

/-- C5 counterexample: the claim says diffCheckedLimits is the componentwise
difference in all four fields; on the record pair below the MaxMsgSets and
MaxObservables components of the difference would be 3 - 1 = 2, but the
function returns 0 in both. -/
theorem diffCheckedLimits_counterexample :
    ¬ ((diffCheckedLimits ⟨0, 0, 1, 1⟩ ⟨0, 0, 3, 3⟩).maxMsgSets = (3 : Int) - 1 ∧
       (diffCheckedLimits ⟨0, 0, 1, 1⟩ ⟨0, 0, 3, 3⟩).maxObservables = (3 : Int) - 1) := by
  decide

/-- C5 (amended): diffCheckedLimits equals new - old on the MaxMemory and
MaxStore fields, and its MaxMsgSets and MaxObservables fields are always 0. -/
theorem diffCheckedLimits_componentwise (a b : JetStreamAccountLimits) :
    (diffCheckedLimits a b).maxMemory = b.maxMemory - a.maxMemory ∧
    (diffCheckedLimits a b).maxStore = b.maxStore - a.maxStore ∧
    (diffCheckedLimits a b).maxMsgSets = 0 ∧
    (diffCheckedLimits a b).maxObservables = 0 :=
  ⟨rfl, rfl, rfl, rfl⟩

/-- C9: reserveResources followed by releaseResources on the same limits record
is the identity on the engine state; both touch only the positive MaxMemory and
MaxStore fields, so the ledger counters return exactly to their prior values. -/
theorem reserve_release_id (st : JetStreamState) (d : JetStreamAccountLimits) :
    releaseResources (reserveResources st (some d)) (some d) = st := by
  rw [reserveResources_eq, releaseResources_eq]
  simp

/-- C2 counterexample: with an account observables cap of -1 (the dynamic
default, meaning unlimited per the claim) and a requested MaxObservables of 1,
the claim says the request passes this step and inherits the cap, but
checkLimits rejects it, because the code guards on config.MaxObservables > 0,
not on the account limit being positive. -/
theorem checkLimits_claim_counterexample :
    (JsAccount.mk ⟨1000, 1000, -1, -1⟩ [] 0 0).limits.maxObservables = -1 ∧
    checkLimits (JsAccount.mk ⟨1000, 1000, -1, -1⟩ [] 0 0)
        { name := "S1", replicas := 1, maxObservables := 1, maxBytes := 0,
          storage := StorageType.memoryStorage }
      = Except.error "maximum observables exceeds account limit" :=
  ⟨rfl, rfl⟩

/-- C2 (amended): once the message-set count and replicas checks pass, the
request is rejected with "maximum observables exceeds account limit" exactly
when the requested MaxObservables is positive and exceeds the account cap; in
every other case this step passes and the account's cap is copied into the
config's MaxObservables field. -/
theorem checkLimits_observables (jsa : JsAccount) (config : MsgSetConfig)
    (h1 : ¬ (jsa.limits.maxMsgSets > 0 ∧ (jsa.msgSets.length : Int) ≥ jsa.limits.maxMsgSets))
    (h2 : config.replicas = 1) :
    (checkLimits jsa config = Except.error "maximum observables exceeds account limit" ↔
       config.maxObservables > 0 ∧ config.maxObservables > jsa.limits.maxObservables) ∧
    ∀ c, checkLimits jsa config = Except.ok c →
      c.maxObservables = jsa.limits.maxObservables := by
  unfold checkLimits
  rw [if_neg h1, if_neg (by simp [h2])]
  by_cases h3 : config.maxObservables > 0 ∧ config.maxObservables > jsa.limits.maxObservables
  · rw [if_pos h3]
    exact ⟨⟨fun _ => h3, fun _ => rfl⟩, fun c hc => by cases hc⟩
  · rw [if_neg h3]
    constructor
    · constructor
      · intro h
        exfalso
        dsimp only at h
        repeat' split at h
        all_goals
          first
          | cases h
          | (injection h with h; exact absurd h (by decide))
      · intro hh
        exact absurd hh h3
    · intro c hc
      dsimp only at hc
      repeat' split at hc
      all_goals cases hc
      all_goals rfl

/-- C2 witness account: message-set count unlimited, observables cap 2. -/
def jsaC2w : JsAccount := { limits := ⟨1000, 1000, -1, 2⟩, msgSets := [], memReserved := 0, storeReserved := 0 }

/-- C2 witness config: requests 5 observables against a cap of 2. -/
def cfgC2w : MsgSetConfig :=
  { name := "S1", replicas := 1, maxObservables := 5, maxBytes := 0,
    storage := StorageType.memoryStorage }

/-- C2 witness: at the concrete account and config above, the amended statement
yields the rejection. -/
theorem checkLimits_observables_witness :
    checkLimits jsaC2w cfgC2w = Except.error "maximum observables exceeds account limit" :=
  (checkLimits_observables jsaC2w cfgC2w (by decide) (by decide)).1.mpr (by decide)

theorem reserveResources_accounts (st : JetStreamState) (l : JetStreamAccountLimits) :
    (reserveResources st (some l)).accounts = st.accounts := by
  rw [reserveResources_eq]

theorem releaseResources_accounts (st : JetStreamState) (l : JetStreamAccountLimits) :
    (releaseResources st (some l)).accounts = st.accounts := by
  rw [releaseResources_eq]

/-- C4: the update-limits path computes the delta via diffCheckedLimits, runs
the sufficiency check on that delta first, and only on success releases the old
limits, reserves the new ones and stores them; when the sufficiency check
fails, the call returns that error with the engine state (ledger counters,
accounts map and the stored limits) exactly as before the call. -/
theorem updateJetStreamLimits_atomic (st : JetStreamState) (a : Nat)
    (old new : JetStreamAccountLimits) (hlk : st.accounts.lookup a = some old) :
    (∀ err, sufficientResources st (some (diffCheckedLimits old new)) = some err →
        updateJetStreamLimits st a new = (st, some err)) ∧
    (sufficientResources st (some (diffCheckedLimits old new)) = none →
        updateJetStreamLimits st a new =
          ({ reserveResources (releaseResources st (some old)) (some new) with
              accounts := st.accounts.map (fun p => if p.1 == a then (a, new) else p) },
            none)) := by
  constructor
  · intro err herr
    simp only [updateJetStreamLimits, hlk, herr]
  · intro hok
    simp only [updateJetStreamLimits, hlk, hok,
      reserveResources_accounts, releaseResources_accounts]

/-- C4 witness state: one account (key 7) holding 50 bytes of each limit
against engine maxima of 100. -/
def stC4 : JetStreamState :=
  { config := { maxMemory := 100, maxStore := 100, storeDir := "" },
    accounts := [(7, ⟨50, 50, 0, 0⟩)],
    memReserved := 50, storeReserved := 50 }

/-- C4 witness: raising the account's MaxMemory to 200 needs a delta of +150,
which fails the sufficiency check, and the call returns the untouched state. -/
theorem updateJetStreamLimits_atomic_witness :
    updateJetStreamLimits stC4 7 ⟨200, 50, 0, 0⟩
      = (stC4, some "insufficient memory resources available") :=
  (updateJetStreamLimits_atomic stC4 7 ⟨50, 50, 0, 0⟩ ⟨200, 50, 0, 0⟩ (by decide)).1
    _ (by decide)

/-- C6: account enablement under the engine lock checks sufficiency first
(returning that error even for an already-enabled account), then rejects a
duplicate with exactly "jetstream already enabled for account", and only when
both checks pass inserts the account and reserves its limits; both error paths
return the state unchanged. -/
theorem accountEnableJetStream_checks (st : JetStreamState) (a : Nat)
    (limits : JetStreamAccountLimits) :
    (∀ err, sufficientResources st (some limits) = some err →
        accountEnableJetStream st a limits = (st, some err)) ∧
    (sufficientResources st (some limits) = none →
      ∀ v, st.accounts.lookup a = some v →
        accountEnableJetStream st a limits =
          (st, some "jetstream already enabled for account")) ∧
    (sufficientResources st (some limits) = none →
      st.accounts.lookup a = none →
        accountEnableJetStream st a limits =
          (reserveResources { st with accounts := (a, limits) :: st.accounts }
             (some limits), none)) := by
  refine ⟨fun err herr => ?_, fun hok v hv => ?_, fun hok hnone => ?_⟩
  · simp only [accountEnableJetStream, herr]
  · simp only [accountEnableJetStream, hok, hv]
  · simp only [accountEnableJetStream, hok, hnone]

/-- C6 witness state: account 3 already enabled, plenty of quota left. -/
def stC6 : JetStreamState :=
  { config := { maxMemory := 100, maxStore := 100, storeDir := "" },
    accounts := [(3, ⟨10, 10, 0, 0⟩)],
    memReserved := 10, storeReserved := 10 }

/-- C6 witness: re-enabling account 3 passes the quota check and fails the
duplicate check with the exact error, leaving the state unchanged. -/
theorem accountEnableJetStream_checks_witness :
    accountEnableJetStream stC6 3 ⟨10, 10, 0, 0⟩
      = (stC6, some "jetstream already enabled for account") :=
  (accountEnableJetStream_checks stC6 3 ⟨10, 10, 0, 0⟩).2.1 (by decide)
    ⟨10, 10, 0, 0⟩ (by decide)

theorem reservedSum_cons (f : JetStreamAccountLimits → Int)
    (p : Nat × JetStreamAccountLimits) (accs : List (Nat × JetStreamAccountLimits)) :
    reservedSum f (p :: accs) = posPart (f p.2) + reservedSum f accs := by
  simp [reservedSum]

theorem lookup_none_not_mem {a : Nat} :
    ∀ {accs : List (Nat × JetStreamAccountLimits)},
      accs.lookup a = none → a ∉ accountKeys accs := by
  intro accs
  induction accs with
  | nil => intro _ h; simp [accountKeys] at h
  | cons p rest ih =>
    obtain ⟨k, v⟩ := p
    intro hl hm
    rcases hbeq : a == k with _ | _
    · have hl2 : List.lookup a rest = none := by
        rw [List.lookup_cons, hbeq] at hl
        exact hl
      have hak : a ≠ k := by simpa using hbeq
      simp only [accountKeys, List.map_cons, List.mem_cons] at hm
      rcases hm with hm | hm
      · exact hak hm
      · exact ih hl2 hm
    · have hcontra : some v = none := by
        rw [List.lookup_cons, hbeq] at hl
        exact hl
      cases hcontra

theorem filter_eq_of_not_mem {a : Nat} :
    ∀ {accs : List (Nat × JetStreamAccountLimits)},
      a ∉ accountKeys accs → accs.filter (fun p => p.1 != a) = accs := by
  intro accs
  induction accs with
  | nil => intro _; rfl
  | cons p rest ih =>
    obtain ⟨k, v⟩ := p
    intro hm
    simp only [accountKeys, List.map_cons, List.mem_cons] at hm
    push_neg at hm
    obtain ⟨hak, hrest⟩ := hm
    have hk : ((k, v).1 != a) = true := by simpa using (Ne.symm hak)
    simp only [List.filter_cons, hk, Bool.false_eq_true, if_false, if_true]
    rw [ih (by simpa [accountKeys] using hrest)]

theorem mapUpdate_eq_of_not_mem {a : Nat} (new : JetStreamAccountLimits) :
    ∀ {accs : List (Nat × JetStreamAccountLimits)},
      a ∉ accountKeys accs →
      accs.map (fun p => if p.1 == a then (a, new) else p) = accs := by
  intro accs
  induction accs with
  | nil => intro _; rfl
  | cons p rest ih =>
    obtain ⟨k, v⟩ := p
    intro hm
    simp only [accountKeys, List.map_cons, List.mem_cons] at hm
    push_neg at hm
    obtain ⟨hak, hrest⟩ := hm
    have hk : ((k, v).1 == a) = false := by simpa using (Ne.symm hak)
    simp only [List.map_cons, hk, Bool.false_eq_true, if_false, if_true]
    rw [ih (by simpa [accountKeys] using hrest)]

theorem reservedSum_filter (f : JetStreamAccountLimits → Int) {a : Nat}
    {v : JetStreamAccountLimits} :
    ∀ {accs : List (Nat × JetStreamAccountLimits)},
      (accountKeys accs).Nodup → accs.lookup a = some v →
      reservedSum f (accs.filter (fun p => p.1 != a))
        = reservedSum f accs - posPart (f v) := by
  intro accs
  induction accs with
  | nil => intro _ hl; simp at hl
  | cons p rest ih =>
    obtain ⟨k, v2⟩ := p
    intro hnd hl
    rcases hbeq : a == k with _ | _
    · have hl2 : List.lookup a rest = some v := by
        rw [List.lookup_cons, hbeq] at hl
        exact hl
      have hak : a ≠ k := by simpa using hbeq
      have hk : ((k, v2).1 != a) = true := by simpa using (Ne.symm hak)
      have hnd2 : (accountKeys rest).Nodup := by
        simp only [accountKeys, List.map_cons, List.nodup_cons] at hnd
        exact hnd.2
      simp only [List.filter_cons, hk, Bool.false_eq_true, if_false, if_true]
      rw [reservedSum_cons, reservedSum_cons, ih hnd2 hl2]
      ring
    · have hv : v2 = v := by
        have hsome : some v2 = some v := by
          rw [List.lookup_cons, hbeq] at hl
          exact hl
        injection hsome
      have hak : a = k := by simpa using hbeq
      have hknotin : k ∉ accountKeys rest := by
        simp only [accountKeys, List.map_cons, List.nodup_cons] at hnd
        exact hnd.1
      have hk : ((k, v2).1 != a) = false := by simp [hak]
      simp only [List.filter_cons, hk, Bool.false_eq_true, if_false, if_true]
      rw [filter_eq_of_not_mem (by rwa [hak]), reservedSum_cons, hv]
      ring

theorem reservedSum_mapUpdate (f : JetStreamAccountLimits → Int) {a : Nat}
    {v : JetStreamAccountLimits} (new : JetStreamAccountLimits) :
    ∀ {accs : List (Nat × JetStreamAccountLimits)},
      (accountKeys accs).Nodup → accs.lookup a = some v →
      reservedSum f (accs.map (fun p => if p.1 == a then (a, new) else p))
        = reservedSum f accs - posPart (f v) + posPart (f new) := by
  intro accs
  induction accs with
  | nil => intro _ hl; simp at hl
  | cons p rest ih =>
    obtain ⟨k, v2⟩ := p
    intro hnd hl
    rcases hbeq : a == k with _ | _
    · have hl2 : List.lookup a rest = some v := by
        rw [List.lookup_cons, hbeq] at hl
        exact hl
      have hak : a ≠ k := by simpa using hbeq
      have hk : ((k, v2).1 == a) = false := by simpa using (Ne.symm hak)
      have hnd2 : (accountKeys rest).Nodup := by
        simp only [accountKeys, List.map_cons, List.nodup_cons] at hnd
        exact hnd.2
      simp only [List.map_cons, hk, Bool.false_eq_true, if_false, if_true]
      rw [reservedSum_cons, reservedSum_cons, ih hnd2 hl2]
      ring
    · have hv : v2 = v := by
        have hsome : some v2 = some v := by
          rw [List.lookup_cons, hbeq] at hl
          exact hl
        injection hsome
      have hak : a = k := by simpa using hbeq
      have hknotin : k ∉ accountKeys rest := by
        simp only [accountKeys, List.map_cons, List.nodup_cons] at hnd
        exact hnd.1
      have hk : ((k, v2).1 == a) = true := by simp [hak]
      simp only [List.map_cons, hk, Bool.false_eq_true, if_false, if_true]
      rw [mapUpdate_eq_of_not_mem new (by rwa [hak]),
        reservedSum_cons, reservedSum_cons, hv]
      ring

theorem accountKeys_mapUpdate (a : Nat) (new : JetStreamAccountLimits) :
    ∀ (accs : List (Nat × JetStreamAccountLimits)),
      accountKeys (accs.map (fun p => if p.1 == a then (a, new) else p))
        = accountKeys accs := by
  intro accs
  induction accs with
  | nil => rfl
  | cons p rest ih =>
    obtain ⟨k, v⟩ := p
    simp only [accountKeys] at ih ⊢
    by_cases hka : k = a
    · have hk : ((k, v).1 == a) = true := by simp [hka]
      simp only [List.map_cons, hk, Bool.false_eq_true, if_false, if_true]
      rw [ih, hka]
    · have hk : ((k, v).1 == a) = false := by simpa using hka
      simp only [List.map_cons, hk, Bool.false_eq_true, if_false, if_true]
      rw [ih]

theorem enable_good (st : JetStreamState) (a : Nat) (l : JetStreamAccountLimits)
    (h : goodState st) : goodState (accountEnableJetStream st a l).1 := by
  obtain ⟨⟨hmem, hsto⟩, hnd⟩ := h
  rcases hsuf : sufficientResources st (some l) with _ | err
  · rcases hlk : st.accounts.lookup a with _ | v
    · simp only [accountEnableJetStream, hsuf, hlk, reserveResources_eq]
      refine ⟨⟨?_, ?_⟩, ?_⟩
      · dsimp only
        rw [reservedSum_cons, hmem]
        ring
      · dsimp only
        rw [reservedSum_cons, hsto]
        ring
      · dsimp only
        simp only [accountKeys, List.map_cons, List.nodup_cons]
        exact ⟨lookup_none_not_mem hlk, hnd⟩
    · simp only [accountEnableJetStream, hsuf, hlk]
      exact ⟨⟨hmem, hsto⟩, hnd⟩
  · simp only [accountEnableJetStream, hsuf]
    exact ⟨⟨hmem, hsto⟩, hnd⟩

theorem update_good (st : JetStreamState) (a : Nat) (l : JetStreamAccountLimits)
    (h : goodState st) : goodState (updateJetStreamLimits st a l).1 := by
  obtain ⟨⟨hmem, hsto⟩, hnd⟩ := h
  rcases hlk : st.accounts.lookup a with _ | old
  · simp only [updateJetStreamLimits, hlk]
    exact ⟨⟨hmem, hsto⟩, hnd⟩
  · rcases hsuf : sufficientResources st (some (diffCheckedLimits old l)) with _ | err
    · simp only [updateJetStreamLimits, hlk, hsuf, reserveResources_eq,
        releaseResources_eq]
      refine ⟨⟨?_, ?_⟩, ?_⟩
      · dsimp only
        rw [reservedSum_mapUpdate _ l hnd hlk, hmem]
      · dsimp only
        rw [reservedSum_mapUpdate _ l hnd hlk, hsto]
      · dsimp only
        rw [accountKeys_mapUpdate]
        exact hnd
    · simp only [updateJetStreamLimits, hlk, hsuf]
      exact ⟨⟨hmem, hsto⟩, hnd⟩

theorem disable_good (st : JetStreamState) (a : Nat)
    (h : goodState st) : goodState (disableJetStream st a).1 := by
  obtain ⟨⟨hmem, hsto⟩, hnd⟩ := h
  rcases hlk : st.accounts.lookup a with _ | v
  · simp only [disableJetStream, hlk]
    exact ⟨⟨hmem, hsto⟩, hnd⟩
  · simp only [disableJetStream, hlk, releaseResources_eq]
    refine ⟨⟨?_, ?_⟩, ?_⟩
    · dsimp only
      rw [reservedSum_filter _ hnd hlk, hmem]
    · dsimp only
      rw [reservedSum_filter _ hnd hlk, hsto]
    · dsimp only
      exact List.Nodup.sublist
        (List.Sublist.map Prod.fst (List.filter_sublist st.accounts)) hnd

theorem applyOp_good (st : JetStreamState) (op : JSOp) (h : goodState st) :
    goodState (applyOp st op) := by
  cases op with
  | enable a l => exact enable_good st a l h
  | update a l => exact update_good st a l h
  | disable a => exact disable_good st a h

theorem runOps_good : ∀ (ops : List JSOp) (st : JetStreamState),
    goodState st → goodState (runOps st ops)
  | [], _, h => h
  | op :: rest, st, h => runOps_good rest _ (applyOp_good st op h)

/-- C3 counterexample: the account with MaxMemory = MaxStore = -1 is accepted
by enable (the sufficiency check passes), but reserveResources adds nothing,
so the reserved counters (0) differ from the plain sums over enabled accounts
(-1), refuting the claimed invariant for non-positive fields. -/
theorem ledger_claim_counterexample :
    ¬ specClaimedLedgerInv
        (runOps (initialState { maxMemory := 1000, maxStore := 1000, storeDir := "" })
          [JSOp.enable 0 ⟨-1, -1, 0, 0⟩]) := by
  unfold specClaimedLedgerInv
  decide

/-- C3 (amended): at every state reachable from the freshly enabled engine by
any sequence of account enable, update-limits and disable operations,
memReserved equals the sum over enabled accounts of the positive part of
limits.MaxMemory, and storeReserved the analogous sum for MaxStore (only
positive byte fields are ever added by reserveResources or subtracted by
releaseResources). -/
theorem ledger_invariant_reachable (cfg : JetStreamConfig) (ops : List JSOp) :
    ledgerInv (runOps (initialState cfg) ops) :=
  (runOps_good ops (initialState cfg) ⟨⟨rfl, rfl⟩, List.nodup_nil⟩).1

/-- JetStreamStoreDir (jetstream.go): the directory name suffix. -/
def JetStreamStoreDir : String := "jetstream"

/-- JetStreamMaxStoreDefault (jetstream.go): 1 TiB. -/
def JetStreamMaxStoreDefault : Int := 1024 * 1024 * 1024 * 1024

/-- JetStreamMaxMemDefault (jetstream.go): 256 MiB, used only when system
memory cannot be determined. -/
def JetStreamMaxMemDefault : Int := 1024 * 1024 * 256

/-- filepath.Join for the two-component calls made here, restricted to clean
path components as jetstream.go uses it (a base directory and the fixed name
"jetstream"): concatenation with a single separator. -/
def filepathJoin (a b : String) : String := a ++ "/" ++ b

/-- Server.dynJetStreamConfig (jetstream.go): dynamic defaults.  The external
inputs os.TempDir() and sysmem.Memory() are passed as the parameters tmpDir
and sysMem (sysMem non-positive models failed detection). -/
def dynJetStreamConfig (tmpDir : String) (sysMem : Int) (storeDir : String) :
    JetStreamConfig :=
  let jsc0 : JetStreamConfig := { maxMemory := 0, maxStore := 0, storeDir := "" }
  let jsc1 :=
    if storeDir ≠ "" then { jsc0 with storeDir := filepathJoin storeDir JetStreamStoreDir }
    else { jsc0 with storeDir := filepathJoin tmpDir JetStreamStoreDir }
  let jsc2 := { jsc1 with maxStore := JetStreamMaxStoreDefault }
  if sysMem > 0 then { jsc2 with maxMemory := sysMem / 4 * 3 }
  else { jsc2 with maxMemory := JetStreamMaxMemDefault }

/-- The configuration-defaulting prefix of Server.EnableJetStream
(jetstream.go): a nil config, or one with a non-positive MaxMemory or MaxStore,
is replaced by the dynamic configuration (keeping a given StoreDir); afterwards
an empty StoreDir defaults to the temporary directory. -/
def effectiveJetStreamConfig (tmpDir : String) (sysMem : Int)
    (config : Option JetStreamConfig) : JetStreamConfig :=
  let cfg :=
    match config with
    | none => dynJetStreamConfig tmpDir sysMem ""
    | some c =>
      if c.maxMemory ≤ 0 ∨ c.maxStore ≤ 0 then dynJetStreamConfig tmpDir sysMem c.storeDir
      else c
  if cfg.storeDir = "" then { cfg with storeDir := filepathJoin tmpDir JetStreamStoreDir }
  else cfg

theorem filepathJoin_storeDir_ne_empty (a : String) :
    filepathJoin a JetStreamStoreDir ≠ "" := by
  intro h
  have hlen := congrArg String.length h
  simp only [filepathJoin, JetStreamStoreDir, String.length_append] at hlen
  rw [show ("/".length) = 1 from rfl, show ("jetstream".length) = 9 from rfl,
    show ("".length) = 0 from rfl] at hlen
  omega

theorem dynJetStreamConfig_empty (tmpDir : String) (sysMem : Int) :
    dynJetStreamConfig tmpDir sysMem "" =
      { maxMemory := if sysMem > 0 then sysMem / 4 * 3 else JetStreamMaxMemDefault,
        maxStore := JetStreamMaxStoreDefault,
        storeDir := filepathJoin tmpDir JetStreamStoreDir } := by
  by_cases hm : sysMem > 0 <;> simp [dynJetStreamConfig, hm]

/-- C7: with a nil config, or a config whose MaxMemory or MaxStore is zero or
negative and with no storage directory given, engine enablement uses the
dynamic defaults: StoreDir is the temporary directory joined with "jetstream",
MaxStore is 1 TiB, and MaxMemory is three-quarters of detected system memory
(computed as sysMem / 4 * 3) or 256 MiB when detection fails. -/
theorem effectiveJetStreamConfig_dynDefaults (tmpDir : String) (sysMem : Int)
    (config : Option JetStreamConfig)
    (h : config = none ∨
      ∃ c, config = some c ∧ (c.maxMemory ≤ 0 ∨ c.maxStore ≤ 0) ∧ c.storeDir = "") :
    effectiveJetStreamConfig tmpDir sysMem config =
      { maxMemory := if sysMem > 0 then sysMem / 4 * 3 else 1024 * 1024 * 256,
        maxStore := 1024 * 1024 * 1024 * 1024,
        storeDir := tmpDir ++ "/" ++ "jetstream" } := by
  have hdyn : dynJetStreamConfig tmpDir sysMem "" =
      { maxMemory := if sysMem > 0 then sysMem / 4 * 3 else 1024 * 1024 * 256,
        maxStore := 1024 * 1024 * 1024 * 1024,
        storeDir := tmpDir ++ "/" ++ "jetstream" } := by
    rw [dynJetStreamConfig_empty]
    simp [JetStreamMaxMemDefault, JetStreamMaxStoreDefault, filepathJoin, JetStreamStoreDir]
  have hne : (dynJetStreamConfig tmpDir sysMem "").storeDir ≠ "" := by
    rw [dynJetStreamConfig_empty]
    exact filepathJoin_storeDir_ne_empty tmpDir
  rcases h with h | ⟨c, hc, hbad, hdir⟩
  · subst h
    simp only [effectiveJetStreamConfig]
    rw [if_neg hne, hdyn]
  · subst hc
    simp only [effectiveJetStreamConfig, if_pos hbad, hdir]
    rw [if_neg hne, hdyn]

/-- C7 witness: a nil config on a host with 8 bytes of detected memory and
temporary directory "/tmp" yields MaxMemory 6, MaxStore 1 TiB and store
directory "/tmp/jetstream". -/
theorem effectiveJetStreamConfig_dynDefaults_witness :
    effectiveJetStreamConfig "/tmp" 8 none =
      { maxMemory := 6, maxStore := 1024 * 1024 * 1024 * 1024,
        storeDir := "/tmp/jetstream" } := by
  rw [effectiveJetStreamConfig_dynDefaults "/tmp" 8 none (Or.inl rfl)]
  decide

/-- The OK reply constant (jetstream.go). -/
def OK : String := "+OK"

/-- The error reply token, named ErrPrefix in jetstream.go. -/
def errPre : String := "-ERR"

/-- A single-quote character, written by code point. -/
def quoteChar : Char := Char.ofNat 39

/-- JetStreamNotEnabled (jetstream.go). -/
def JetStreamNotEnabled : String :=
  errPre ++ " " ++ String.mk [quoteChar] ++ "jetstream not enabled for account"
    ++ String.mk [quoteChar]

/-- JetStreamBadRequest (jetstream.go). -/
def JetStreamBadRequest : String :=
  errPre ++ " " ++ String.mk [quoteChar] ++ "bad request" ++ String.mk [quoteChar]

/-- Split a character list at every space, modelling Go strings.Split with the
single-character separator " ": splitting the empty string yields one empty
field, and consecutive separators yield empty fields. -/
def splitAtSpaces : List Char → List (List Char)
  | [] => [[]]
  | c :: rest =>
    if c = ' ' then [] :: splitAtSpaces rest
    else
      match splitAtSpaces rest with
      | [] => [[c]]
      | w :: ws => (c :: w) :: ws

/-- Go strings.Split(s, " ") (standard library, modelled explicitly). -/
def goSplitSpace (s : String) : List String :=
  (splitAtSpaces s.toList).map (fun l => String.mk l)

/-- Numeric value of a list of decimal digit characters. -/
def digitsVal (l : List Char) : Nat :=
  l.foldl (fun n c => n * 10 + (c.toNat - 48)) 0

/-- The largest int64 value. -/
def int64Max : Int := 9223372036854775807

/-- The smallest int64 value. -/
def int64Min : Int := -9223372036854775808

/-- Go strconv.Atoi on a 64-bit platform (standard library, modelled
explicitly): an optional sign followed by one or more decimal digits.  Returns
the value and true on success; (0, false) on a syntactically malformed input;
and the saturated int64 bound with false on a well-formed but out-of-range
input (ParseInt range errors return the clamped extreme alongside ErrRange). -/
def goAtoi (s : String) : Int × Bool :=
  let chars := s.toList
  let signAndDigits : Bool × List Char :=
    match chars with
    | c :: rest =>
      if c = '-' then (true, rest)
      else if c = '+' then (false, rest)
      else (false, chars)
    | [] => (false, [])
  let neg := signAndDigits.1
  let ds := signAndDigits.2
  if ds.isEmpty ∨ ¬ ds.all Char.isDigit then (0, false)
  else
    let n : Int := (digitsVal ds : Nat)
    let v := if neg then -n else n
    if v > int64Max then (int64Max, false)
    else if v < int64Min then (int64Min, false)
    else (v, true)

/-- The Go conversion uint64(i) of an int64 value, as a natural number. -/
def uint64Of (i : Int) : Nat := (i % (2 ^ 64 : Int)).toNat

/-- The account state visible to the message-delete handler: whether JetStream
is enabled for the requesting client's account, the registry of message sets
(by name), and the external MsgSet.EraseMsg operation (msgset.go, outside the
slice), an oracle from set name and store sequence to the success flag. -/
structure MsgDeleteEnv where
  jetStreamEnabled : Bool
  msgSets : List String
  eraseMsg : String → Nat → Bool

/-- Account.LookupMsgSet (jetstream.go) for an account known to be enabled:
a missing name yields the "msgset not found" error, otherwise the handle
(modelled by the name). -/
def lookupMsgSet (msgSets : List String) (name : String) : Except String String :=
  if msgSets.contains name then Except.ok name
  else Except.error "msgset not found"

/-- Server.jsMsgDeleteRequest (jetstream.go): parse "name seq", discard the
Atoi error, look the set up and erase the message.  Returns the environment at
the point of reply (no branch writes to it) and the reply payload. -/
def jsMsgDeleteRequest (env : MsgDeleteEnv) (msg : String) :
    MsgDeleteEnv × Option String :=
  if env.jetStreamEnabled = false then (env, some JetStreamNotEnabled)
  else
    match goSplitSpace msg with
    | [name, seqStr] =>
      let seq := (goAtoi seqStr).1
      match lookupMsgSet env.msgSets name with
      | Except.error e => (env, some (errPre ++ " " ++ e))
      | Except.ok mname =>
        if env.eraseMsg mname (uint64Of seq) = false then
          (env, some (errPre ++ " sequence [" ++ toString seq ++ "] not found"))
        else (env, some OK)
    | _ => (env, some JetStreamBadRequest)

/-- C8: on an enabled account, a body that does not split on single spaces
into exactly two tokens is answered with exactly the bad-request reply, and
the handler's state (registry and ledger) is returned unchanged. -/
theorem jsMsgDeleteRequest_badRequest (env : MsgDeleteEnv) (msg : String)
    (he : env.jetStreamEnabled = true)
    (h : (goSplitSpace msg).length ≠ 2) :
    jsMsgDeleteRequest env msg = (env, some JetStreamBadRequest) := by
  cases hsp : goSplitSpace msg with
  | nil => simp [jsMsgDeleteRequest, he, hsp]
  | cons x t =>
    cases t with
    | nil => simp [jsMsgDeleteRequest, he, hsp]
    | cons y t2 =>
      cases t2 with
      | nil =>
        exfalso
        apply h
        rw [hsp]
        rfl
      | cons z t3 => simp [jsMsgDeleteRequest, he, hsp]

/-- C8 witness environment: enabled account with one message set. -/
def envC8 : MsgDeleteEnv :=
  { jetStreamEnabled := true, msgSets := ["S1"], eraseMsg := fun _ _ => true }

/-- C8 witness: the body "S1" (missing sequence) splits into one token and is
answered with the bad-request reply, state unchanged. -/
theorem jsMsgDeleteRequest_badRequest_witness :
    jsMsgDeleteRequest envC8 "S1" = (envC8, some JetStreamBadRequest) :=
  jsMsgDeleteRequest_badRequest envC8 "S1" rfl (by decide)

theorem seqReply_ne_badRequest (v : Int) :
    errPre ++ " sequence [" ++ toString v ++ "] not found" ≠ JetStreamBadRequest := by
  intro h
  have e1 : errPre ++ " sequence [" = "-ERR sequence [" := by decide
  rw [e1] at h
  have h5 := congrArg (fun s => s.data[5]?) h
  simp only [String.data_append, List.append_assoc] at h5
  rw [List.getElem?_append_left
    (show 5 < "-ERR sequence [".data.length by decide)] at h5
  exact absurd h5 (by decide)

/-- C10 counterexample: the body "S1 99999999999999999999" has two tokens and
an out-of-range second token, so Atoi fails with a range error.  The claim
says the sequence is then taken to be 0 and the failure reply names sequence
0, but the handler uses the clamped value 9223372036854775807 that Go's Atoi
returns alongside the error. -/
theorem jsMsgDeleteRequest_seqZero_counterexample :
    (goAtoi "99999999999999999999").2 = false ∧
    (goAtoi "99999999999999999999").1 = 9223372036854775807 ∧
    (jsMsgDeleteRequest
        { jetStreamEnabled := true, msgSets := ["S1"], eraseMsg := fun _ _ => false }
        "S1 99999999999999999999").2
      = some (errPre ++ " sequence [9223372036854775807] not found") ∧
    (jsMsgDeleteRequest
        { jetStreamEnabled := true, msgSets := ["S1"], eraseMsg := fun _ _ => false }
        "S1 99999999999999999999").2
      ≠ some (errPre ++ " sequence [0] not found") := by
  refine ⟨by decide, by decide, by decide, by decide⟩

/-- C10 (amended): a two-token body whose second token fails Go's Atoi is not
answered with the bad-request reply; the parse error is silently discarded and
the sequence becomes the value Atoi returns alongside the error (0 for a
syntactically malformed token, the saturated int64 bound for an out-of-range
one), and when the set exists and EraseMsg of that value reports failure the
reply is exactly the sequence-not-found error naming that value. -/
theorem jsMsgDeleteRequest_invalidSeq (env : MsgDeleteEnv)
    (msg name seqStr : String)
    (he : env.jetStreamEnabled = true)
    (hsp : goSplitSpace msg = [name, seqStr])
    (_hbad : (goAtoi seqStr).2 = false) :
    (jsMsgDeleteRequest env msg).2 ≠ some JetStreamBadRequest ∧
    (env.msgSets.contains name = true →
      env.eraseMsg name (uint64Of (goAtoi seqStr).1) = false →
      (jsMsgDeleteRequest env msg).2
        = some (errPre ++ " sequence [" ++ toString (goAtoi seqStr).1
            ++ "] not found")) := by
  by_cases hc : env.msgSets.contains name
  · by_cases herase : env.eraseMsg name (uint64Of (goAtoi seqStr).1) = false
    · constructor
      · simp only [jsMsgDeleteRequest, he, hsp, lookupMsgSet, hc, if_true,
          Bool.true_eq_false, if_false, herase]
        intro hcontra
        injection hcontra with hcontra
        exact seqReply_ne_badRequest _ hcontra
      · intro _ _
        simp only [jsMsgDeleteRequest, he, hsp, lookupMsgSet, hc, if_true,
          Bool.true_eq_false, if_false, herase]
    · constructor
      · simp only [jsMsgDeleteRequest, he, hsp, lookupMsgSet, hc, if_true,
          Bool.true_eq_false, if_false, herase]
        intro hcontra
        injection hcontra with hcontra
        exact absurd hcontra (by decide)
      · intro _ hcontra
        exact absurd hcontra herase
  · constructor
    · simp only [jsMsgDeleteRequest, he, hsp, lookupMsgSet, hc,
        Bool.true_eq_false, if_false]
      intro hcontra
      injection hcontra with hcontra
      exact absurd hcontra (by decide)
    · intro hcontra
      exact absurd hcontra hc

/-- C10 witness environment: enabled account, set "S1", erase always fails. -/
def envC10w : MsgDeleteEnv :=
  { jetStreamEnabled := true, msgSets := ["S1"], eraseMsg := fun _ _ => false }

/-- C10 witness: for the body "S1 abc" (malformed token, Atoi value 0) the
amended statement applies: no bad-request reply, and the failure reply names
sequence 0. -/
theorem jsMsgDeleteRequest_invalidSeq_witness :
    (jsMsgDeleteRequest envC10w "S1 abc").2 ≠ some JetStreamBadRequest ∧
    (envC10w.msgSets.contains "S1" = true →
      envC10w.eraseMsg "S1" (uint64Of (goAtoi "abc").1) = false →
      (jsMsgDeleteRequest envC10w "S1 abc").2
        = some (errPre ++ " sequence [" ++ toString (goAtoi "abc").1
            ++ "] not found")) :=
  jsMsgDeleteRequest_invalidSeq envC10w "S1 abc" "S1" "abc" rfl (by decide) (by decide)

/-- What the recovery loop in Account.EnableJetStream (jetstream.go) finds in
one prospective message-set directory, following the four sequential checks of
the source: meta.inf missing, meta.inf unreadable, meta.sum missing, JSON
decode failure, or a successfully parsed MsgSetConfig. -/
inductive MetaStatus where
  | missingMeta
  | unreadableMeta
  | missingSum
  | badJSON
  | parsed (cfg : MsgSetConfig)

/-- The message-set recovery loop of Account.EnableJetStream (jetstream.go),
run over the listed directory entries (name and meta status).  addMsgSet
models Account.AddMsgSet (msgset.go, outside the slice): on error the returned
handle is nil, on success the handle is modelled by its Stats().Msgs count.
Each meta-check failure warns and continues.  When AddMsgSet fails, the source
only logs the warning and then calls mset.Stats() on the nil handle; that
nil-pointer dereference (a Go panic aborting the whole procedure) is modelled
as the result `none`.  On success the set is recovered and the loop continues;
`some names` lists the recovered sets. -/
def recoverMsgSets (addMsgSet : MsgSetConfig → Except String Nat) :
    List (String × MetaStatus) → Option (List String)
  | [] => some []
  | (name, status) :: rest =>
    match status with
    | MetaStatus.missingMeta => recoverMsgSets addMsgSet rest
    | MetaStatus.unreadableMeta => recoverMsgSets addMsgSet rest
    | MetaStatus.missingSum => recoverMsgSets addMsgSet rest
    | MetaStatus.badJSON => recoverMsgSets addMsgSet rest
    | MetaStatus.parsed cfg =>
      match addMsgSet cfg with
      | Except.error _ => none
      | Except.ok _stats =>
        match recoverMsgSets addMsgSet rest with
        | none => none
        | some names => some (name :: names)

/-- An AddMsgSet oracle that rejects the config named "a.b" (a name containing
a dot fails isValidName, jetstream.go) and accepts everything else. -/
def addRejectingDottedName : MsgSetConfig → Except String Nat := fun cfg =>
  if cfg.name = "a.b" then Except.error "invalid name" else Except.ok 0

/-- C1: the claim (and the spec) say an AddMsgSet failure during recovery is
logged and the set skipped, never aborting recovery of the remaining sets.
In the code the error branch does not continue: mset is nil and the following
mset.Stats() call dereferences it, crashing the whole procedure.  Evaluated at
a failing input: a directory "S1" whose meta parses to the rejected config
aborts recovery (result none), losing the healthy set "S2" that recovers fine
on its own. -/
theorem recovery_crashes_on_addMsgSet_error :
    recoverMsgSets addRejectingDottedName
        [("S1", MetaStatus.parsed
            { name := "a.b", replicas := 1, maxObservables := 0, maxBytes := 0,
              storage := StorageType.memoryStorage }),
         ("S2", MetaStatus.parsed
            { name := "S2", replicas := 1, maxObservables := 0, maxBytes := 0,
              storage := StorageType.memoryStorage })]
      = none ∧
    recoverMsgSets addRejectingDottedName
        [("S2", MetaStatus.parsed
            { name := "S2", replicas := 1, maxObservables := 0, maxBytes := 0,
              storage := StorageType.memoryStorage })]
      = some ["S2"] ∧
    recoverMsgSets addRejectingDottedName
        [("S1", MetaStatus.badJSON),
         ("S2", MetaStatus.parsed
            { name := "S2", replicas := 1, maxObservables := 0, maxBytes := 0,
              storage := StorageType.memoryStorage })]
      = some ["S2"] :=
  ⟨rfl, rfl, rfl⟩

end NatsServer
